import Mathlib

/-!
# Verification of the Lytir.io forecasting backend (`src/app.py`)

Shallow embedding of the persistent state (the `users`, `markets` and
`forecasts` tables) and of the request handlers the claims refer to:
`submit_forecast`, `resolve_market`, `get_market`,
`calculate_crowd_prediction` and `calculate_user_accuracy`.

Conventions of the embedding:
* SQLite rows become Lean structures; the three tables become lists.
* `REAL` columns (forecast probabilities, SQL `AVG`) are modelled by `ℚ`.
* Python's `int(x)` (truncation toward zero) is `pyInt`; Python's
  `round(x, 0)` (round half to even) is `pyRound`.
* A missing or falsy JSON field (`not all([...])` in the handlers) is
  modelled by `0` for integer ids, `""` for the outcome string and
  `none` for the optional probability.
* Handlers return the new state paired with the HTTP status code.
-/

structure User where
  id : Nat
  tokens : Int
deriving DecidableEq, Repr

structure Market where
  id : Nat
  status : String
deriving DecidableEq, Repr

structure Forecast where
  id : Nat
  user_id : Nat
  market_id : Nat
  probability : ℚ
  tokens_spent : Int
  reward : Int
deriving DecidableEq, Repr

structure DB where
  users : List User
  markets : List Market
  forecasts : List Forecast
  nextForecastId : Nat
deriving DecidableEq, Repr

/-- Python's `int(q)`: truncation toward zero. -/
def pyInt (q : ℚ) : ℤ :=
  if 0 ≤ q then ⌊q⌋ else ⌈q⌉

/-- Python's `round(q, 0)`: round to nearest integer, ties to even. -/
def pyRound (q : ℚ) : ℤ :=
  if Int.fract q < 1 / 2 then ⌊q⌋
  else if 1 / 2 < Int.fract q then ⌊q⌋ + 1
  else if ⌊q⌋ % 2 = 0 then ⌊q⌋ else ⌊q⌋ + 1

/-- The loop body of `resolve_market` (app.py:435-443): accuracy is the
probability when the outcome is the string `"yes"`, else `100 - probability`;
the reward is `int(accuracy * 0.5)`. -/
def forecastReward (outcome : String) (p : ℚ) : ℤ :=
  pyInt ((if outcome = "yes" then p else 100 - p) * (1 / 2))

/-- `calculate_crowd_prediction` (app.py:98-109): mean probability over the
forecasts of the market, Python-rounded, paired with the forecast count;
`(50, 0)` when there is no forecast. -/
def calculate_crowd_prediction (db : DB) (mid : Nat) : ℤ × Nat :=
  if (db.forecasts.filter (fun f => f.market_id = mid)).length > 0 then
    (pyRound (((db.forecasts.filter (fun f => f.market_id = mid)).map
        (fun f => f.probability)).sum /
        (db.forecasts.filter (fun f => f.market_id = mid)).length),
     (db.forecasts.filter (fun f => f.market_id = mid)).length)
  else (50, 0)

/-- The join of app.py:117-120: the forecasts of the user whose market is
resolved (market ids are primary keys, so the row lookup is `find?`). -/
def resolvedForecastsOf (db : DB) (uid : Nat) : List Forecast :=
  db.forecasts.filter (fun f => f.user_id = uid ∧
    (db.markets.find? (fun m => m.id = f.market_id)).map Market.status =
      some "resolved")

/-- `calculate_user_accuracy` (app.py:111-134): `0` with no resolved
forecast, else `round(100 - mean of abs(100 - probability), 0)`. -/
def calculate_user_accuracy (db : DB) (uid : Nat) : ℤ :=
  if (resolvedForecastsOf db uid).length = 0 then 0
  else pyRound (100 -
    ((resolvedForecastsOf db uid).map (fun f => |100 - f.probability|)).sum /
      (resolvedForecastsOf db uid).length)

/-- `GET /api/markets/<id>` (app.py:296-326), reduced to its status code:
`404` when no market row has the id, else `200`. -/
def get_market (db : DB) (mid : Nat) : Nat :=
  match db.markets.find? (fun m => m.id = mid) with
  | none => 404
  | some _ => 200

/-- `POST /api/forecast` (app.py:332-384) for an authenticated user `uid`.
Checks run in source order: required fields, probability range, market
existence, market status, token balance; on success the forecast row is
inserted and 10 tokens are debited.  A missing user row would raise in
Python (`user['tokens']`), modelled by status `500`. -/
def submit_forecast (db : DB) (uid : Nat) (mid : Nat) (prob : Option ℚ) :
    DB × Nat :=
  match prob with
  | none => (db, 400)
  | some p =>
    if mid = 0 then (db, 400)
    else if p < 0 ∨ 100 < p then (db, 400)
    else
      match db.markets.find? (fun m => m.id = mid) with
      | none => (db, 404)
      | some m =>
        if m.status ≠ "active" then (db, 400)
        else
          match db.users.find? (fun u => u.id = uid) with
          | none => (db, 500)
          | some u =>
            if u.tokens < 10 then (db, 400)
            else
              ({ db with
                  forecasts := db.forecasts ++
                    [⟨db.nextForecastId, uid, mid, p, 10, 0⟩],
                  users := db.users.map (fun v =>
                    if v.id = uid then { v with tokens := v.tokens - 10 }
                    else v),
                  nextForecastId := db.nextForecastId + 1 }, 201)

/-- The market-status write of app.py:429 on one row. -/
def setStatusResolved (mid : Nat) (m : Market) : Market :=
  if m.id = mid then { m with status := "resolved" } else m

/-- One iteration of the resolution loop (app.py:435-450): write the reward
of the forecast row (keyed by forecast id) and credit its forecaster. -/
def resolveStep (outcome : String) (d : DB) (f : Forecast) : DB :=
  { d with
    forecasts := d.forecasts.map (fun g =>
      if g.id = f.id then { g with reward := forecastReward outcome f.probability }
      else g),
    users := d.users.map (fun u =>
      if u.id = f.user_id then
        { u with tokens := u.tokens + forecastReward outcome f.probability }
      else u) }

/-- `POST /api/admin/resolve-market` (app.py:415-455): after the required
field check there is no existence check; the status of every market row
with the id is set to `resolved`, then every forecast of the market gets
its reward written and its forecaster credited, and the handler answers
`200`. -/
def resolve_market (db : DB) (mid : Nat) (outcome : String) : DB × Nat :=
  if mid = 0 ∨ outcome = "" then (db, 400)
  else
    let db1 : DB := { db with markets := db.markets.map (setStatusResolved mid) }
    ((db1.forecasts.filter (fun f => f.market_id = mid)).foldl
      (resolveStep outcome) db1, 200)

/-- Sum of the rewards the resolution loop credits to user `uid`. -/
def creditSum (outcome : String) (l : List Forecast) (uid : Nat) : ℤ :=
  match l with
  | [] => 0
  | f :: t =>
    (if f.user_id = uid then forecastReward outcome f.probability else 0) +
      creditSum outcome t uid

lemma pyInt_eq_floor (q : ℚ) (h : 0 ≤ q) : pyInt q = ⌊q⌋ := if_pos h

/-- Python's `round` lands on an integer at distance at most `1/2` from its
argument, i.e. on a nearest integer. -/
lemma abs_pyRound_sub_le (q : ℚ) : |(pyRound q : ℚ) - q| ≤ 1 / 2 := by
  have h0 : 0 ≤ Int.fract q := Int.fract_nonneg q
  have h1 : Int.fract q < 1 := Int.fract_lt_one q
  have hq : (⌊q⌋ : ℚ) + Int.fract q = q := Int.floor_add_fract q
  unfold pyRound
  split_ifs <;> rw [abs_le] <;> push_cast <;>
    simp only [not_lt] at * <;> constructor <;> linarith

example : forecastReward "yes" 80 = 40 := by
  norm_num [forecastReward, pyInt]

example : pyRound (5 / 2) = 2 := by
  norm_num [pyRound, Int.fract, Rat.floor_def]

example : pyRound (7 / 2) = 4 := by
  norm_num [pyRound, Int.fract, Rat.floor_def]

/-- Small database used as an input of witnesses: one rich user, one poor
user, one active and one resolved market, no forecasts. -/
def dbBase : DB :=
  { users := [⟨1, 1000⟩, ⟨2, 5⟩],
    markets := [⟨1, "active"⟩, ⟨2, "resolved"⟩],
    forecasts := [],
    nextForecastId := 1 }

/-- C1: in `resolve_market`, the reward of a forecast is
`floor(accuracy * 0.5)` with accuracy `p` on outcome `yes` and `100 - p`
otherwise; probability 80 yields 40 under `yes` and 10 under `no`, and any
probability in `[0, 100]` yields a reward in `[0, 50]`. -/
theorem reward_floor_formula (outcome : String) (p : ℚ)
    (h0 : 0 ≤ p) (h1 : p ≤ 100) :
    forecastReward outcome p =
      ⌊(if outcome = "yes" then p else 100 - p) * (1 / 2 : ℚ)⌋ ∧
    forecastReward "yes" 80 = 40 ∧
    forecastReward "no" 80 = 10 ∧
    0 ≤ forecastReward outcome p ∧ forecastReward outcome p ≤ 50 := by
  have hacc0 : (0 : ℚ) ≤ (if outcome = "yes" then p else 100 - p) := by
    split <;> linarith
  have hacc1 : (if outcome = "yes" then p else 100 - p) ≤ 100 := by
    split <;> linarith
  have hfl : forecastReward outcome p =
      ⌊(if outcome = "yes" then p else 100 - p) * (1 / 2 : ℚ)⌋ :=
    pyInt_eq_floor _ (mul_nonneg hacc0 (by norm_num))
  have hnoyes : ("no" : String) ≠ "yes" := by decide
  refine ⟨hfl, by norm_num [forecastReward, pyInt],
    by norm_num [forecastReward, pyInt, hnoyes], ?_, ?_⟩
  · rw [hfl]
    exact Int.floor_nonneg.mpr (mul_nonneg hacc0 (by norm_num))
  · rw [hfl]
    calc ⌊(if outcome = "yes" then p else 100 - p) * (1 / 2 : ℚ)⌋
        ≤ ⌊(50 : ℚ)⌋ := Int.floor_le_floor (by linarith)
      _ = 50 := by norm_num

theorem reward_floor_formula_witness :
    (0 : ℚ) ≤ 80 ∧ (80 : ℚ) ≤ 100 ∧
      (forecastReward "yes" 80 =
        ⌊(if "yes" = "yes" then (80 : ℚ) else 100 - 80) * (1 / 2 : ℚ)⌋ ∧
       forecastReward "yes" 80 = 40 ∧
       forecastReward "no" 80 = 10 ∧
       0 ≤ forecastReward "yes" 80 ∧ forecastReward "yes" 80 ≤ 50) :=
  ⟨by norm_num, by norm_num,
    reward_floor_formula "yes" 80 (by norm_num) (by norm_num)⟩

/-- C5: an authenticated forecast submission whose probability is a number
outside `[0, 100]` answers 400 and leaves the state untouched (no forecast
row, no token debit). -/
theorem submit_out_of_range (db : DB) (uid mid : Nat) (p : ℚ)
    (h : p < 0 ∨ 100 < p) :
    submit_forecast db uid mid (some p) = (db, 400) := by
  unfold submit_forecast
  by_cases hm : mid = 0
  · simp [hm]
  · simp [hm, h]

theorem submit_out_of_range_witness :
    ((150 : ℚ) < 0 ∨ 100 < (150 : ℚ)) ∧
      submit_forecast dbBase 1 1 (some 150) = (dbBase, 400) :=
  ⟨Or.inr (by norm_num),
    submit_out_of_range dbBase 1 1 150 (Or.inr (by norm_num))⟩

/-- C7: a forecast submission against an existing market whose status is
not `active` answers 400 and leaves the state untouched, whatever the rest
of the request holds. -/
theorem submit_inactive_market (db : DB) (uid mid : Nat) (prob : Option ℚ)
    (m : Market) (hm : db.markets.find? (fun x => x.id = mid) = some m)
    (hs : m.status ≠ "active") :
    submit_forecast db uid mid prob = (db, 400) := by
  unfold submit_forecast
  match prob with
  | none => rfl
  | some p =>
    by_cases h0 : mid = 0
    · simp [h0]
    · by_cases hp : p < 0 ∨ 100 < p
      · simp [h0, hp]
      · simp [h0, hp, hm, hs]

theorem submit_inactive_market_witness :
    dbBase.markets.find? (fun x => x.id = 2) = some ⟨2, "resolved"⟩ ∧
      (⟨2, "resolved"⟩ : Market).status ≠ "active" ∧
      submit_forecast dbBase 1 2 (some 70) = (dbBase, 400) :=
  ⟨by decide, by decide,
    submit_inactive_market dbBase 1 2 (some 70) ⟨2, "resolved"⟩
      (by decide) (by decide)⟩

/-- Database with forecasts: two on the active market 1 (probabilities 70
and 80) and one on the resolved market 2 (probability 90). -/
def dbFc : DB :=
  { users := [⟨1, 990⟩],
    markets := [⟨1, "active"⟩, ⟨2, "resolved"⟩],
    forecasts := [⟨1, 1, 1, 70, 10, 0⟩, ⟨2, 1, 1, 80, 10, 0⟩,
                  ⟨3, 1, 2, 90, 10, 0⟩],
    nextForecastId := 4 }

/-- C2: the crowd prediction of a market carries the forecast count and a
nearest integer to the arithmetic mean of the market's probabilities
(within `1/2` of it); with no forecasts it is `(50, 0)`. -/
theorem crowd_prediction_mean (db : DB) (mid : Nat) :
    (db.forecasts.filter (fun f => f.market_id = mid) = [] →
      calculate_crowd_prediction db mid = (50, 0)) ∧
    (db.forecasts.filter (fun f => f.market_id = mid) ≠ [] →
      (calculate_crowd_prediction db mid).2 =
        (db.forecasts.filter (fun f => f.market_id = mid)).length ∧
      |((calculate_crowd_prediction db mid).1 : ℚ) -
          ((db.forecasts.filter (fun f => f.market_id = mid)).map
              (fun f => f.probability)).sum /
            (db.forecasts.filter (fun f => f.market_id = mid)).length| ≤
        1 / 2) := by
  constructor
  · intro h
    unfold calculate_crowd_prediction
    rw [h]
    simp
  · intro h
    have hlen : 0 < (db.forecasts.filter (fun f => f.market_id = mid)).length :=
      List.length_pos.mpr h
    unfold calculate_crowd_prediction
    rw [if_pos hlen]
    exact ⟨rfl, abs_pyRound_sub_le _⟩

theorem crowd_prediction_mean_witness :
    calculate_crowd_prediction dbBase 1 = (50, 0) ∧
    (calculate_crowd_prediction dbFc 1).2 =
      (dbFc.forecasts.filter (fun f => f.market_id = 1)).length ∧
    |((calculate_crowd_prediction dbFc 1).1 : ℚ) -
        ((dbFc.forecasts.filter (fun f => f.market_id = 1)).map
            (fun f => f.probability)).sum /
          (dbFc.forecasts.filter (fun f => f.market_id = 1)).length| ≤ 1 / 2 :=
  ⟨(crowd_prediction_mean dbBase 1).1 rfl,
   ((crowd_prediction_mean dbFc 1).2 (by decide)).1,
   ((crowd_prediction_mean dbFc 1).2 (by decide)).2⟩

/-- C8: for a user with at least one forecast on a resolved market, the
accuracy is `100 - mean of abs(100 - probability)` over those forecasts,
rounded to a whole number (the result is an integer within `1/2` of that
value); no market outcome enters the computation — the store does not even
record outcomes. -/
theorem user_accuracy_heuristic (db : DB) (uid : Nat)
    (h : resolvedForecastsOf db uid ≠ []) :
    |((calculate_user_accuracy db uid : ℚ)) -
        (100 - ((resolvedForecastsOf db uid).map
            (fun f => |100 - f.probability|)).sum /
          (resolvedForecastsOf db uid).length)| ≤ 1 / 2 := by
  have hlen : ¬ (resolvedForecastsOf db uid).length = 0 :=
    fun hl => h (List.length_eq_zero.mp hl)
  unfold calculate_user_accuracy
  rw [if_neg hlen]
  exact abs_pyRound_sub_le _

theorem user_accuracy_heuristic_witness :
    resolvedForecastsOf dbFc 1 ≠ [] ∧
    |((calculate_user_accuracy dbFc 1 : ℚ)) -
        (100 - ((resolvedForecastsOf dbFc 1).map
            (fun f => |100 - f.probability|)).sum /
          (resolvedForecastsOf dbFc 1).length)| ≤ 1 / 2 :=
  ⟨by decide, user_accuracy_heuristic dbFc 1 (by decide)⟩

/-- Effect of a run of the resolution loop on one forecast row. -/
def applyRew (outcome : String) (l : List Forecast) (g : Forecast) : Forecast :=
  l.foldl (fun g f =>
    if g.id = f.id then { g with reward := forecastReward outcome f.probability }
    else g) g

/-- Effect of a run of the resolution loop on one user row. -/
def applyCred (outcome : String) (l : List Forecast) (u : User) : User :=
  l.foldl (fun u f =>
    if u.id = f.user_id then
      { u with tokens := u.tokens + forecastReward outcome f.probability }
    else u) u

lemma foldl_resolveStep (outcome : String) (l : List Forecast) (d : DB) :
    l.foldl (resolveStep outcome) d =
      { users := d.users.map (applyCred outcome l),
        markets := d.markets,
        forecasts := d.forecasts.map (applyRew outcome l),
        nextForecastId := d.nextForecastId } := by
  induction l generalizing d with
  | nil =>
    have hu : List.map (applyCred outcome []) d.users = d.users := by
      rw [show applyCred outcome [] = id from rfl, List.map_id]
    have hf : List.map (applyRew outcome []) d.forecasts = d.forecasts := by
      rw [show applyRew outcome [] = id from rfl, List.map_id]
    rw [List.foldl_nil, hu, hf]
  | cons f t ih =>
    rw [List.foldl_cons, ih]
    simp only [resolveStep, List.map_map]
    rfl

lemma applyRew_id (outcome : String) (l : List Forecast) (g : Forecast)
    (h : ∀ f ∈ l, f.id ≠ g.id) : applyRew outcome l g = g := by
  induction l with
  | nil => rfl
  | cons f t ih =>
    rw [applyRew, List.foldl_cons,
      if_neg fun he => h f (List.mem_cons_self f t) (by rw [he])]
    exact ih fun f hf => h f (List.mem_cons_of_mem _ hf)

lemma applyRew_mem (outcome : String) (l : List Forecast) (g : Forecast)
    (hmem : g ∈ l) (hnd : (l.map Forecast.id).Nodup) :
    applyRew outcome l g =
      { g with reward := forecastReward outcome g.probability } := by
  induction l with
  | nil => cases hmem
  | cons f t ih =>
    rw [applyRew, List.foldl_cons]
    rcases List.mem_cons.mp hmem with rfl | hg
    · rw [if_pos rfl]
      refine applyRew_id outcome t _ fun f' hf' he => ?_
      exact ((List.nodup_cons.mp (by simpa using hnd)).1 :
        g.id ∉ t.map Forecast.id) (he ▸ List.mem_map_of_mem Forecast.id hf')
    · have hne : g.id ≠ f.id := fun he =>
        ((List.nodup_cons.mp (by simpa using hnd)).1 : f.id ∉ t.map Forecast.id)
          (he ▸ List.mem_map_of_mem Forecast.id hg)
      rw [if_neg hne]
      exact ih hg (by simpa using (List.nodup_cons.mp (by simpa using hnd)).2)

lemma applyRew_filter (outcome : String) (db : DB) (mid : Nat) (g : Forecast)
    (hg : g ∈ db.forecasts) (hnd : (db.forecasts.map Forecast.id).Nodup) :
    applyRew outcome (db.forecasts.filter (fun f => f.market_id = mid)) g =
      if g.market_id = mid
      then { g with reward := forecastReward outcome g.probability } else g := by
  by_cases hm : g.market_id = mid
  · rw [if_pos hm]
    refine applyRew_mem outcome _ g (List.mem_filter.mpr ⟨hg, by simp [hm]⟩) ?_
    exact ((List.filter_sublist _).map Forecast.id).nodup hnd
  · rw [if_neg hm]
    refine applyRew_id outcome _ g fun f hf he => ?_
    have hfm := List.mem_filter.mp hf
    have : f = g :=
      List.inj_on_of_nodup_map hnd hfm.1 hg he
    exact hm (by simpa [this] using hfm.2)

lemma applyCred_eq (outcome : String) (l : List Forecast) (u : User) :
    applyCred outcome l u =
      { u with tokens := u.tokens + creditSum outcome l u.id } := by
  induction l generalizing u with
  | nil =>
    cases u
    simp [applyCred, creditSum]
  | cons f t ih =>
    rw [applyCred, List.foldl_cons]
    by_cases hu : u.id = f.user_id
    · rw [if_pos hu]
      refine (ih _).trans ?_
      simp [creditSum, hu, add_assoc]
    · rw [if_neg hu]
      refine (ih _).trans ?_
      simp [creditSum, Ne.symm hu]

/-- The net effect of resolving market `mid` on one forecast row. -/
def rewardWrite (outcome : String) (mid : Nat) (g : Forecast) : Forecast :=
  if g.market_id = mid
  then { g with reward := forecastReward outcome g.probability } else g

/-- The net effect of a resolution crediting the forecasts `l` on one
user row. -/
def userCredit (outcome : String) (l : List Forecast) (u : User) : User :=
  { u with tokens := u.tokens + creditSum outcome l u.id }

/-- Full characterisation of one `resolve_market` call on a state whose
forecast ids are pairwise distinct (they are a primary key). -/
lemma resolve_market_eq (db : DB) (mid : Nat) (outcome : String)
    (hmid : mid ≠ 0) (hoc : outcome ≠ "")
    (hnd : (db.forecasts.map Forecast.id).Nodup) :
    resolve_market db mid outcome =
      ({ users := db.users.map (userCredit outcome
            (db.forecasts.filter (fun f => f.market_id = mid))),
         markets := db.markets.map (setStatusResolved mid),
         forecasts := db.forecasts.map (rewardWrite outcome mid),
         nextForecastId := db.nextForecastId }, 200) := by
  unfold resolve_market
  rw [if_neg (not_or.mpr ⟨hmid, hoc⟩)]
  show (List.foldl _ _ _, 200) = _
  rw [foldl_resolveStep]
  refine Prod.ext ?_ rfl
  show DB.mk _ _ _ _ = _
  simp only [DB.mk.injEq]
  refine ⟨?_, trivial, ?_, trivial⟩
  · exact List.map_congr_left fun u _ => applyCred_eq outcome _ u
  · exact List.map_congr_left fun g hg => applyRew_filter outcome db mid g hg hnd

lemma creditSum_eq_zero (outcome : String) (l : List Forecast) (uid : Nat)
    (h : ∀ f ∈ l, f.user_id ≠ uid) : creditSum outcome l uid = 0 := by
  induction l with
  | nil => rfl
  | cons f t ih =>
    rw [creditSum, if_neg (h f (List.mem_cons_self f t)), zero_add]
    exact ih fun f hf => h f (List.mem_cons_of_mem _ hf)

/-- C3: one `resolve_market` call answers 200, sets the status of the named
market to `resolved` leaving every other market unchanged, sets the reward
of exactly the forecasts of that market to their computed reward, credits
each forecaster with the sum of their rewards on that market, and leaves a
user untouched when none of the market's forecasts is theirs. -/
theorem resolve_market_effects (db : DB) (mid : Nat) (outcome : String)
    (hmid : mid ≠ 0) (hoc : outcome ≠ "")
    (hnd : (db.forecasts.map Forecast.id).Nodup) :
    (resolve_market db mid outcome).2 = 200 ∧
    (resolve_market db mid outcome).1.markets =
      db.markets.map (fun m =>
        if m.id = mid then { m with status := "resolved" } else m) ∧
    (resolve_market db mid outcome).1.forecasts =
      db.forecasts.map (fun g =>
        if g.market_id = mid
        then { g with reward := forecastReward outcome g.probability } else g) ∧
    (resolve_market db mid outcome).1.users =
      db.users.map (fun u =>
        { u with tokens := u.tokens + creditSum outcome
                      (db.forecasts.filter (fun f => f.market_id = mid))
                      u.id }) ∧
    (resolve_market db mid outcome).1.nextForecastId = db.nextForecastId ∧
    ∀ u ∈ db.users,
      (∀ f ∈ db.forecasts, f.market_id = mid → f.user_id ≠ u.id) →
      { u with tokens := u.tokens + creditSum outcome
                    (db.forecasts.filter (fun f => f.market_id = mid))
                    u.id } = u := by
  rw [resolve_market_eq db mid outcome hmid hoc hnd]
  refine ⟨rfl, List.map_congr_left fun m _ => rfl, rfl, rfl, rfl, ?_⟩
  intro u _ hu
  rw [creditSum_eq_zero outcome _ u.id fun f hf =>
    hu f (List.mem_filter.mp hf).1 (by simpa using (List.mem_filter.mp hf).2)]
  simp

theorem resolve_market_effects_witness :
    (resolve_market dbFc 1 "yes").2 = 200 ∧
    (resolve_market dbFc 1 "yes").1.forecasts =
      dbFc.forecasts.map (fun g =>
        if g.market_id = 1
        then { g with reward := forecastReward "yes" g.probability } else g) ∧
    (resolve_market dbFc 1 "yes").1.users =
      dbFc.users.map (fun u =>
        { u with tokens := u.tokens + creditSum "yes"
                      (dbFc.forecasts.filter (fun f => f.market_id = 1))
                      u.id }) :=
  ⟨(resolve_market_effects dbFc 1 "yes" (by decide) (by decide) (by decide)).1,
   (resolve_market_effects dbFc 1 "yes" (by decide) (by decide) (by decide)).2.2.1,
   (resolve_market_effects dbFc 1 "yes" (by decide) (by decide)
     (by decide)).2.2.2.1⟩

/-- C10: any non-empty outcome other than the exact string `"yes"` (such as
`"No"`, `"YES"` or `"maybe"`) drives the resolution exactly as the outcome
`"no"` does: the whole result coincides, and each forecast's accuracy is
`100` minus its probability. -/
theorem resolve_nonyes_acts_as_no (db : DB) (mid : Nat) (outcome : String)
    (hy : outcome ≠ "yes") (he : outcome ≠ "") :
    resolve_market db mid outcome = resolve_market db mid "no" ∧
    ∀ p : ℚ, forecastReward outcome p = pyInt ((100 - p) * (1 / 2)) := by
  have hno : ("no" : String) ≠ "yes" := by decide
  have hfr : ∀ p : ℚ, forecastReward outcome p = forecastReward "no" p := by
    intro p
    unfold forecastReward
    rw [if_neg hy, if_neg hno]
  constructor
  · have hstep : resolveStep outcome = resolveStep "no" := by
      funext d f
      unfold resolveStep
      rw [hfr]
    unfold resolve_market
    rw [hstep]
    by_cases h0 : mid = 0
    · rw [if_pos (Or.inl h0), if_pos (Or.inl h0)]
    · rw [if_neg (not_or.mpr ⟨h0, he⟩),
        if_neg (not_or.mpr ⟨h0, by decide⟩)]
  · intro p
    rw [hfr]
    unfold forecastReward
    rw [if_neg hno]

theorem resolve_nonyes_acts_as_no_witness :
    resolve_market dbFc 1 "maybe" = resolve_market dbFc 1 "no" ∧
    forecastReward "maybe" 80 = pyInt ((100 - 80) * (1 / 2)) :=
  ⟨(resolve_nonyes_acts_as_no dbFc 1 "maybe" (by decide) (by decide)).1,
   (resolve_nonyes_acts_as_no dbFc 1 "maybe" (by decide) (by decide)).2 80⟩

/-- C9 counterexample: `dbBase` holds no market with id 7, yet resolving
market 7 answers 200 — not 404 as the claim states. -/
theorem resolve_unknown_market_answers_200 :
    dbBase.markets.find? (fun m => m.id = 7) = none ∧
    (resolve_market dbBase 7 "yes").2 = 200 ∧
    ¬ (resolve_market dbBase 7 "yes").2 = 404 :=
  ⟨by decide, by decide, by decide⟩

/-- C9 amended: fetching an unknown market id answers 404, and a field-valid
forecast submission naming an unknown market id answers 404 with no state
change; resolving an unknown market id, however, runs no existence check —
it answers 200 and (no forecast row carrying the id) changes nothing. -/
theorem unknown_resource_codes (db : DB) (uid mid : Nat) (q : ℚ)
    (outcome : String)
    (hm : db.markets.find? (fun m => m.id = mid) = none)
    (hmid : mid ≠ 0) (h0 : 0 ≤ q) (h1 : q ≤ 100) (hoc : outcome ≠ "")
    (hf : db.forecasts.filter (fun f => f.market_id = mid) = []) :
    get_market db mid = 404 ∧
    submit_forecast db uid mid (some q) = (db, 404) ∧
    resolve_market db mid outcome = (db, 200) := by
  have hmk : db.markets.map (setStatusResolved mid) = db.markets := by
    have hall : ∀ m ∈ db.markets, setStatusResolved mid m = m := by
      intro m hmem
      unfold setStatusResolved
      rw [if_neg]
      simpa using List.find?_eq_none.mp hm m hmem
    rw [List.map_congr_left hall, List.map_id']
  refine ⟨?_, ?_, ?_⟩
  · unfold get_market
    rw [hm]
  · simp only [submit_forecast]
    rw [if_neg hmid, if_neg (not_or.mpr ⟨not_lt.mpr h0, not_lt.mpr h1⟩), hm]
  · unfold resolve_market
    rw [if_neg (not_or.mpr ⟨hmid, hoc⟩)]
    simp only [hmk, hf, List.foldl_nil]

theorem unknown_resource_codes_witness :
    get_market dbBase 7 = 404 ∧
    submit_forecast dbBase 1 7 (some 50) = (dbBase, 404) ∧
    resolve_market dbBase 7 "yes" = (dbBase, 200) :=
  unknown_resource_codes dbBase 1 7 50 "yes" (by decide) (by decide)
    (by norm_num) (by norm_num) (by decide) rfl

/-- C6 counterexample: user 2 of `dbBase` holds 5 < 10 tokens, yet their
forecast submission naming the unknown market id 7 answers 404 — not the
claimed 400. -/
theorem submit_insufficient_counterexample :
    dbBase.users.find? (fun x => x.id = 2) = some ⟨2, 5⟩ ∧
    (5 : ℤ) < 10 ∧
    (submit_forecast dbBase 2 7 (some 50)).2 = 404 ∧
    ¬ (submit_forecast dbBase 2 7 (some 50)).2 = 400 := by
  have hev : submit_forecast dbBase 2 7 (some 50) = (dbBase, 404) := by
    simp only [submit_forecast]
    rw [if_neg (by decide : ¬ (7 = 0)),
      if_neg (by norm_num : ¬ ((50 : ℚ) < 0 ∨ 100 < (50 : ℚ))),
      show dbBase.markets.find? (fun m => m.id = 7) = none from by decide]
  refine ⟨by decide, by decide, ?_, ?_⟩
  · rw [hev]
  · rw [hev]
    decide

/-- C6 amended: when the named market exists and the submitting user's row
exists, a balance below the fixed cost 10 always yields 400 with no state
change; a submission that answers 201 requires balance at least 10, debits
exactly 10 tokens from the submitter, and appends one forecast with
reward 0.  (A request naming a nonexistent market answers 404, not 400,
even for a user below 10 tokens — but no forecast is created either way.) -/
theorem submit_insufficient_tokens (db : DB) (uid mid : Nat) (p : ℚ)
    (u : User) (m : Market)
    (hm : db.markets.find? (fun x => x.id = mid) = some m)
    (hu : db.users.find? (fun x => x.id = uid) = some u) :
    (u.tokens < 10 → submit_forecast db uid mid (some p) = (db, 400)) ∧
    ((submit_forecast db uid mid (some p)).2 = 201 →
      10 ≤ u.tokens ∧
      (submit_forecast db uid mid (some p)).1.users =
        db.users.map (fun v =>
          if v.id = uid then { v with tokens := v.tokens - 10 } else v) ∧
      (submit_forecast db uid mid (some p)).1.forecasts =
        db.forecasts ++ [⟨db.nextForecastId, uid, mid, p, 10, 0⟩]) := by
  by_cases h0 : mid = 0
  · have hev : submit_forecast db uid mid (some p) = (db, 400) := by
      simp [submit_forecast, h0]
    refine ⟨fun _ => hev, fun h201 => ?_⟩
    rw [hev] at h201
    simp at h201
  · by_cases hp : p < 0 ∨ 100 < p
    · have hev : submit_forecast db uid mid (some p) = (db, 400) := by
        simp [submit_forecast, h0, hp]
      refine ⟨fun _ => hev, fun h201 => ?_⟩
      rw [hev] at h201
      simp at h201
    · by_cases hs : m.status ≠ "active"
      · have hev : submit_forecast db uid mid (some p) = (db, 400) := by
          simp [submit_forecast, h0, hp, hm, hs]
        refine ⟨fun _ => hev, fun h201 => ?_⟩
        rw [hev] at h201
        simp at h201
      · by_cases ht : u.tokens < 10
        · have hev : submit_forecast db uid mid (some p) = (db, 400) := by
            simp [submit_forecast, h0, hp, hm, hs, hu, ht]
          refine ⟨fun _ => hev, fun h201 => ?_⟩
          rw [hev] at h201
          simp at h201
        · refine ⟨fun hlt => absurd hlt ht, fun _ => ⟨not_lt.mp ht, ?_, ?_⟩⟩
          · simp [submit_forecast, h0, hp, hm, hs, hu, ht]
          · simp [submit_forecast, h0, hp, hm, hs, hu, ht]

theorem submit_insufficient_tokens_witness :
    submit_forecast dbBase 2 1 (some 50) = (dbBase, 400) :=
  (submit_insufficient_tokens dbBase 2 1 50 ⟨2, 5⟩ ⟨1, "active"⟩
    (by decide) (by decide)).1 (by decide)

lemma rewardWrite_id (outcome : String) (mid : Nat) (g : Forecast) :
    (rewardWrite outcome mid g).id = g.id := by
  unfold rewardWrite
  split <;> rfl

lemma rewardWrite_market_id (outcome : String) (mid : Nat) (g : Forecast) :
    (rewardWrite outcome mid g).market_id = g.market_id := by
  unfold rewardWrite
  split <;> rfl

lemma rewardWrite_user_id (outcome : String) (mid : Nat) (g : Forecast) :
    (rewardWrite outcome mid g).user_id = g.user_id := by
  unfold rewardWrite
  split <;> rfl

lemma rewardWrite_probability (outcome : String) (mid : Nat) (g : Forecast) :
    (rewardWrite outcome mid g).probability = g.probability := by
  unfold rewardWrite
  split <;> rfl

lemma rewardWrite_idem (outcome : String) (mid : Nat) (g : Forecast) :
    rewardWrite outcome mid (rewardWrite outcome mid g) =
      rewardWrite outcome mid g := by
  by_cases hg : g.market_id = mid <;> simp [rewardWrite, hg]

lemma setStatusResolved_idem (mid : Nat) (m : Market) :
    setStatusResolved mid (setStatusResolved mid m) =
      setStatusResolved mid m := by
  by_cases hm : m.id = mid <;> simp [setStatusResolved, hm]

lemma nodup_ids_map (h : Forecast → Forecast) (hid : ∀ g, (h g).id = g.id)
    (l : List Forecast) (hnd : (l.map Forecast.id).Nodup) :
    ((l.map h).map Forecast.id).Nodup := by
  rw [List.map_map, show Forecast.id ∘ h = Forecast.id from funext hid]
  exact hnd

lemma creditSum_filter_map (outcome : String) (mid uid : Nat)
    (h : Forecast → Forecast)
    (hmar : ∀ g, (h g).market_id = g.market_id)
    (husr : ∀ g, (h g).user_id = g.user_id)
    (hpro : ∀ g, (h g).probability = g.probability)
    (l : List Forecast) :
    creditSum outcome ((l.map h).filter (fun f => f.market_id = mid)) uid =
      creditSum outcome (l.filter (fun f => f.market_id = mid)) uid := by
  induction l with
  | nil => rfl
  | cons g t ih =>
    rw [List.map_cons, List.filter_cons, List.filter_cons]
    by_cases hg : g.market_id = mid
    · rw [if_pos (by simp [hmar, hg]), if_pos (by simp [hg]),
        creditSum, creditSum, husr, hpro, ih]
    · rw [if_neg (by simp [hmar, hg]), if_neg (by simp [hg]), ih]

/-- C4 amended: a forecast's reward stays 0 until its market is resolved
(forecasts of other markets survive a resolution unchanged) and the status
write is idempotent; but resolving the same market a second time, while
leaving status and every reward value unchanged, credits every
forecaster's balance again — the code has no idempotence guard and
double-pays. -/
theorem resolve_market_not_idempotent (db : DB) (mid : Nat) (outcome : String)
    (hmid : mid ≠ 0) (hoc : outcome ≠ "")
    (hnd : (db.forecasts.map Forecast.id).Nodup) :
    (∀ f ∈ db.forecasts, f.market_id ≠ mid →
      f ∈ (resolve_market db mid outcome).1.forecasts) ∧
    (resolve_market (resolve_market db mid outcome).1 mid outcome).1.markets =
      (resolve_market db mid outcome).1.markets ∧
    (resolve_market (resolve_market db mid outcome).1 mid outcome).1.forecasts =
      (resolve_market db mid outcome).1.forecasts ∧
    (resolve_market (resolve_market db mid outcome).1 mid outcome).1.users =
      (resolve_market db mid outcome).1.users.map (fun u =>
        { u with tokens := u.tokens + creditSum outcome
                      (db.forecasts.filter (fun f => f.market_id = mid))
                      u.id }) := by
  have h1 := resolve_market_eq db mid outcome hmid hoc hnd
  have hnd1 : ((db.forecasts.map (rewardWrite outcome mid)).map
      Forecast.id).Nodup :=
    nodup_ids_map (rewardWrite outcome mid) (rewardWrite_id outcome mid)
      db.forecasts hnd
  have h2 := resolve_market_eq (resolve_market db mid outcome).1 mid outcome
    hmid hoc (by rw [h1]; exact hnd1)
  rw [h2, h1]
  dsimp only
  refine ⟨?_, ?_, ?_, ?_⟩
  · intro f hf hfm
    exact List.mem_map.mpr ⟨f, hf, by unfold rewardWrite; rw [if_neg hfm]⟩
  · rw [List.map_map]
    exact List.map_congr_left fun m _ => setStatusResolved_idem mid m
  · rw [List.map_map]
    exact List.map_congr_left fun g _ => rewardWrite_idem outcome mid g
  · refine List.map_congr_left fun u _ => ?_
    unfold userCredit
    rw [creditSum_filter_map outcome mid u.id (rewardWrite outcome mid)
      (rewardWrite_market_id outcome mid) (rewardWrite_user_id outcome mid)
      (rewardWrite_probability outcome mid) db.forecasts]

theorem resolve_market_not_idempotent_witness :
    (∀ f ∈ dbFc.forecasts, f.market_id ≠ 1 →
      f ∈ (resolve_market dbFc 1 "yes").1.forecasts) ∧
    (resolve_market (resolve_market dbFc 1 "yes").1 1 "yes").1.markets =
      (resolve_market dbFc 1 "yes").1.markets ∧
    (resolve_market (resolve_market dbFc 1 "yes").1 1 "yes").1.forecasts =
      (resolve_market dbFc 1 "yes").1.forecasts ∧
    (resolve_market (resolve_market dbFc 1 "yes").1 1 "yes").1.users =
      (resolve_market dbFc 1 "yes").1.users.map (fun u =>
        { u with tokens := u.tokens + creditSum "yes"
                      (dbFc.forecasts.filter (fun f => f.market_id = 1))
                      u.id }) :=
  resolve_market_not_idempotent dbFc 1 "yes" (by decide) (by decide)
    (by decide)

/-- One user with 100 tokens, one active market, one forecast of
probability 80 on it. -/
def dbOne : DB :=
  { users := [⟨1, 100⟩],
    markets := [⟨1, "active"⟩],
    forecasts := [⟨1, 1, 1, 80, 10, 0⟩],
    nextForecastId := 2 }

/-- C4 counterexample: resolving market 1 of `dbOne` twice credits the
40-token reward twice — the balance goes 100 to 140 to 180 — so a second
resolution does perform further balance credits. -/
theorem resolve_twice_double_pays :
    (resolve_market dbOne 1 "yes").1.users = [⟨1, 140⟩] ∧
    (resolve_market (resolve_market dbOne 1 "yes").1 1 "yes").1.users =
      [⟨1, 180⟩] := by
  have h40 : forecastReward "yes" 80 = 40 := by norm_num [forecastReward, pyInt]
  have h1 := resolve_market_eq dbOne 1 "yes" (by decide) (by decide) (by decide)
  have hnd1 : ((dbOne.forecasts.map (rewardWrite "yes" 1)).map
      Forecast.id).Nodup :=
    nodup_ids_map (rewardWrite "yes" 1) (rewardWrite_id "yes" 1)
      dbOne.forecasts (by decide)
  have h2 := resolve_market_eq (resolve_market dbOne 1 "yes").1 1 "yes"
    (by decide) (by decide) (by rw [h1]; exact hnd1)
  rw [h2, h1]
  dsimp only
  constructor
  · norm_num [dbOne, userCredit, creditSum, h40]
  · norm_num [dbOne, userCredit, creditSum, rewardWrite, h40]
